import Mathlib

set_option linter.unusedVariables false

/-!
Shallow embedding of the supervision core of djteller/MemoryAnalysis:
`lib/cuckoo/core/guest.py` (the methods `GuestManager.wait`,
`GuestManager.take_mem_dump`, `GuestManager.wait_for_completion`) and
`lib/cuckoo/common/utils.py` (the class `_ResumableTimer`).

Remote calls, the watchdog thread and the filesystem are modelled as
oracles and explicit state: `statusAt k` / `errorAt k` give the result of
the RPC made on loop iteration `k` (`.error` models a raised exception),
`abortAt k` gives the value of the local abort flag observed at the top of
iteration `k` (the timer thread may set it at any point chosen by the
scheduler), and the dumps directory is the list of its entry names.
Every operation the code performs on the watchdog timer or the snapshot
store is recorded in an event trace.
-/

/-- Python whitespace stripped by `int(s)` before parsing. -/
def isPySpace (c : Char) : Bool :=
  c == ' ' || c == '\t' || c == '\n' || c == '\r' || c == '\x0b' || c == '\x0c'

/-- Numeric value of a decimal digit character. -/
def digitVal (c : Char) : Nat := c.toNat - 48

/-- Value of a nonempty all-digit character list; `none` otherwise. -/
def digitsVal (cs : List Char) : Option Nat :=
  if !cs.isEmpty && cs.all Char.isDigit then
    some (cs.foldl (fun a c => 10 * a + digitVal c) 0)
  else none

/-- Python 2 `int(s)` on a string: strip surrounding whitespace, optional
    sign, decimal digits; `none` models the `ValueError` raised on any other
    input. -/
def pyInt? (s : String) : Option Int :=
  let cs := ((s.data.dropWhile isPySpace).reverse.dropWhile isPySpace).reverse
  match cs with
  | '-' :: rest => (digitsVal rest).map (fun n => -(n : Int))
  | '+' :: rest => (digitsVal rest).map (fun n => (n : Int))
  | rest => (digitsVal rest).map (fun n => (n : Int))

/-- Apply `f` to every entry, as Python's `sorted(xs, key=f)` evaluates the
    key on every element before comparing; `none` if any application fails. -/
def traverseOpt (f : String → Option Int) : List String → Option (List Int)
  | [] => some []
  | x :: xs =>
    match f x, traverseOpt f xs with
    | some v, some vs => some (v :: vs)
    | _, _ => none

/-- Index chosen by `GuestManager.take_mem_dump`: the source runs
    `listdir = sorted(os.listdir(dumps_dir), key=int, reverse=True)` and sets
    `i = 1` when the listing is empty, else `i = int(listdir[0]) + 1`.  The
    head of the descending sort is an entry of maximal integer value, so `i`
    is the maximum of the parsed values plus one; `int` raising a
    `ValueError` on a non-numeric entry is the `.error` case (the sort key is
    evaluated on every entry before any directory is created). -/
def nextIndex (entries : List String) : Except String Int :=
  match traverseOpt pyInt? entries with
  | none => .error "ValueError: invalid literal for int()"
  | some [] => .ok 1
  | some (v :: vs) => .ok (vs.foldl max v + 1)

/-- Metadata dictionaries built in `wait_for_completion` and written by
    `take_mem_dump` as `info.json`: the JSON object
    `{"trigger": {"name": .., "args": ..}, "time"?: ..}`, where the `time`
    key is present only in the dictionaries that carry it in the source. -/
structure InfoDict where
  trigger_name : String
  trigger_args : List (String × Int)
  time : Option String
deriving DecidableEq, Repr

/-- Filesystem operations performed by `take_mem_dump`, in order. -/
inductive FsAction where
  | mkdir (path : String)
  | dumpMemory (path : String)
  | writeJson (path : String) (info : InfoDict)
deriving DecidableEq, Repr

/-- Model of `GuestManager.take_mem_dump(dumps_dir, machine, machinery,
    json_obj)`: choose the index from the current listing of `dumps_dir`,
    `os.mkdir` the new directory, `machinery.dump_memory` into
    `<dir>/memory.dmp`, then `json.dump` the metadata into `<dir>/info.json`.
    The filesystem effects are returned as an ordered action list; a
    `ValueError` from the index computation aborts the call before any
    action is performed. -/
def take_mem_dump (dumps_dir : String) (entries : List String)
    (json_obj : InfoDict) : Except String (Int × List FsAction) :=
  match nextIndex entries with
  | .error e => .error e
  | .ok i =>
    let dump_dir := dumps_dir ++ "/" ++ toString i
    .ok (i, [FsAction.mkdir dump_dir,
             FsAction.dumpMemory (dump_dir ++ "/memory.dmp"),
             FsAction.writeJson (dump_dir ++ "/info.json") json_obj])

/-- The call `take_mem_dump` together with its effect on the listing of the
    dumps directory: the created directory `str(i)` becomes an entry. -/
def takeDumpStore (dumps_dir : String) (entries : List String)
    (json_obj : InfoDict) : Except String (Int × List String) :=
  match take_mem_dump dumps_dir entries json_obj with
  | .error e => .error e
  | .ok (i, _acts) => .ok (i, toString i :: entries)

/-- State of a `_ResumableTimer` (lib/cuckoo/common/utils.py).  Time is
    measured in the timer's own 5 ms ticks: `interval` and `t` are tick
    counts (the source stores seconds and adds 0.005 per loop iteration, so
    `t >= self.interval` is the same comparison).  `stopev` and `finished`
    are the two `threading.Event` flags; `fired` records that
    `self.function` has been invoked. -/
structure RTimer where
  interval : Nat
  t : Nat
  stopev : Bool
  finished : Bool
  fired : Bool
deriving DecidableEq, Repr

/-- Method `_ResumableTimer.stop`: `self.stopev.set()`. -/
def RTimer.stop (tm : RTimer) : RTimer := { tm with stopev := true }

/-- Method `_ResumableTimer.resume`: `self.stopev.clear()`. -/
def RTimer.resume (tm : RTimer) : RTimer := { tm with stopev := false }

/-- Method `_ResumableTimer.cancel`: `self.finished.set()`. -/
def RTimer.cancel (tm : RTimer) : RTimer := { tm with finished := true }

/-- One iteration of the counting loop of `_ResumableTimer.run`: leave the
    loop (and invoke the callback unless `finished` was already set) when
    `finished` is set or the budget is reached; otherwise a set `stopev`
    keeps the thread in the inner sleep loop without counting; otherwise
    sleep one tick and count it. -/
def RTimer.tick (tm : RTimer) : RTimer :=
  if tm.finished || decide (tm.interval ≤ tm.t) then
    if tm.finished then tm else { tm with fired := true, finished := true }
  else if tm.stopev then tm
  else { tm with t := tm.t + 1 }

/-- Iterated `RTimer.tick`. -/
def RTimer.tickN (tm : RTimer) : Nat → RTimer
  | 0 => tm
  | n + 1 => (tm.tickN n).tick

/-- State of a `threading.Event`: the internal flag, false on construction.
    The source's `Event(STOP_EVENT)` passes `STOP_EVENT` to the constructor
    (where it is swallowed as the legacy `verbose` argument) and yields a
    fresh, unset event; constructing an event never consults any existing
    event object or ambient flag. -/
structure PyEvent where
  flag : Bool
deriving DecidableEq, Repr

/-- Method `threading.Event.is_set`. -/
def PyEvent.is_set (e : PyEvent) : Bool := e.flag

/-- Modelled from the spec: the constant `STOP_EVENT` imported from
    `lib/cuckoo/common/constants`, which is not under `src/`; an opaque
    token naming the process-wide stop flag.  Its value is irrelevant here
    because `threading.Event` ignores its constructor arguments. -/
def STOP_EVENT : String := "stop_event"

/-- Constructing `threading.Event(args...)`: a fresh event with the flag
    clear, whatever the arguments. -/
def Event_new (_arg : String) : PyEvent := { flag := false }

/-- Modelled from the spec: numeric guest-status constant
    `CUCKOO_GUEST_COMPLETED` from `lib/cuckoo/common/constants` (not under
    `src/`).  Only the fixed, pairwise distinct values matter to control
    flow. -/
def CUCKOO_GUEST_COMPLETED : Int := 3

/-- Modelled from the spec: numeric guest-status constant
    `CUCKOO_GUEST_FAILED` from `lib/cuckoo/common/constants` (not under
    `src/`). -/
def CUCKOO_GUEST_FAILED : Int := 4

/-- Modelled from the spec: numeric guest-status constant
    `CUCKOO_GUEST_INIT` from `lib/cuckoo/common/constants` (not under
    `src/`). -/
def CUCKOO_GUEST_INIT : Int := 1

/-- Inputs and oracles of one run of `GuestManager.wait` or
    `GuestManager.wait_for_completion`.  `statusAt k` / `errorAt k` give the
    result of the `get_status()` / `get_error()` RPC made on loop iteration
    `k` (`.error` means the call raised), `abortAt k` the value of
    `abort.is_set()` read at the top of iteration `k` (the timer callback
    `die` sets the flag at a point chosen by the scheduler), `ambientStop`
    the state of the process-wide stop flag named by `STOP_EVENT`;
    `time_based`, `time_to_sleep` and `max_number_of_dumps` are the
    `memoryanalysis.conf` values read before the loop, and `initialEntries`
    the listing of the dumps directory when the loop starts. -/
structure Env where
  statusAt : Nat → Except String Int
  errorAt : Nat → Except String String
  abortAt : Nat → Bool
  ambientStop : Bool
  time_based : Bool
  time_to_sleep : Int
  max_number_of_dumps : Int
  dumps_dir : String
  initialEntries : List String

/-- Observable events of a run: operations on the watchdog timer, the
    server-timeout reset, a sleep of the stop-flag wait body, and each
    successful snapshot with its index and metadata. -/
inductive Ev where
  | timerStart
  | timerStop
  | timerResume
  | timerCancel
  | setTimeoutNone
  | stopWaitSleep
  | dump (index : Int) (info : InfoDict)
deriving DecidableEq, Repr

/-- Mutable state of the completion loop: the cadence counter
    `sec_counter`, the listing of the dumps directory, and the event trace
    so far. -/
structure RunState where
  sec_counter : Int
  entries : List String
  trace : List Ev
deriving DecidableEq, Repr

/-- The metadata dictionary of a periodic (Time-triggered) dump:
    `{"trigger": {"name": "Time", "args": {"interval": time_to_sleep}}}`.
    It has no `time` key. -/
def timeInfo (tts : Int) : InfoDict :=
  { trigger_name := "Time", trigger_args := [("interval", tts)], time := none }

/-- The metadata dictionary of the critical-timeout terminal dump:
    `{"trigger": {"name": "End", "args": {}}, "time": str(sec_counter)}`. -/
def endInfoTimed (sc : Int) : InfoDict :=
  { trigger_name := "End", trigger_args := [], time := some (toString sc) }

/-- The metadata dictionary of the Completed and Failed terminal dumps:
    `{"trigger": {"name": "End", "args": {}}}`.  It has no `time` key. -/
def endInfo : InfoDict :=
  { trigger_name := "End", trigger_args := [], time := none }

/-- The stop-flag wait at the top of each loop iteration:
    `while Event(STOP_EVENT).is_set(): time.sleep(0.005)`.  The condition
    constructs a fresh `Event(STOP_EVENT)` at every test; a sleep event is
    recorded when a test succeeds. -/
def stopWait (st : RunState) : RunState :=
  if (Event_new STOP_EVENT).is_set
  then { st with trace := st.trace ++ [Ev.stopWaitSleep] } else st

/-- The `time.sleep(1); sec_counter += 1` step of each loop iteration. -/
def incCounter (st : RunState) : RunState :=
  { st with sec_counter := st.sec_counter + 1 }

/-- The time-based branch of the completion loop (guest.py lines 233-237):
    when the config enables time-based dumps and the cadence counter is an
    exact multiple of `time_to_sleep`, call `resumableTimer.stop()`, take a
    dump with the Time trigger, then call `resumableTimer.resume()`.  A dump
    failure propagates after the timer was stopped (`.inl`). -/
def periodicStep (env : Env) (st : RunState) : (String × RunState) ⊕ RunState :=
  if env.time_based && (st.sec_counter % env.time_to_sleep == 0) then
    match take_mem_dump env.dumps_dir st.entries (timeInfo env.time_to_sleep) with
    | .error e => .inl (e, { st with trace := st.trace ++ [Ev.timerStop] })
    | .ok (i, _acts) =>
      .inr { st with entries := toString i :: st.entries,
                     trace := st.trace ++ [Ev.timerStop,
                                           Ev.dump i (timeInfo env.time_to_sleep),
                                           Ev.timerResume] }
  else .inr st

/-- How one iteration of the completion loop ended, when it did not
    `continue`. -/
inductive LoopExit where
  | brk
  | timedOut
  | failedErr (msg : String)
  | commError (e : String)
  | dumpError (e : String)
deriving DecidableEq, Repr

/-- One iteration of the `while True` loop of
    `GuestManager.wait_for_completion` (guest.py lines 223-259): check the
    abort flag (critical timeout: terminal dump with the cadence counter,
    then raise); run the stop-flag wait, whose condition constructs a fresh
    `Event(STOP_EVENT)` each test; `time.sleep(1)`; increment `sec_counter`;
    run the time-based dump branch; query `get_status()`, continuing on any
    exception; `break` on Completed; on Failed call `get_error()` outside
    any try (`commError` when it raises), default the message, take the
    terminal dump and raise.  `.inl st` is `continue`, `.inr (ex, st)`
    leaves the loop. -/
def wfcIter (env : Env) (k : Nat) (st : RunState) :
    RunState ⊕ (LoopExit × RunState) :=
  if env.abortAt k then
    match take_mem_dump env.dumps_dir st.entries (endInfoTimed st.sec_counter) with
    | .error e => .inr (.dumpError e, st)
    | .ok (i, _acts) =>
      .inr (.timedOut,
            { st with entries := toString i :: st.entries,
                      trace := st.trace ++ [Ev.dump i (endInfoTimed st.sec_counter)] })
  else
    match periodicStep env (incCounter (stopWait st)) with
    | .inl (e, st1) => .inr (.dumpError e, st1)
    | .inr st1 =>
      match env.statusAt k with
      | .error _e => .inl st1
      | .ok status =>
        if status == CUCKOO_GUEST_COMPLETED then .inr (.brk, st1)
        else if status == CUCKOO_GUEST_FAILED then
          match env.errorAt k with
          | .error e => .inr (.commError e, st1)
          | .ok err =>
            match take_mem_dump env.dumps_dir st1.entries endInfo with
            | .error e => .inr (.dumpError e, st1)
            | .ok (i, _acts) =>
              .inr (.failedErr (if err = "" then "unknown error" else err),
                    { st1 with entries := toString i :: st1.entries,
                               trace := st1.trace ++ [Ev.dump i endInfo] })
        else .inl st1

/-- The completion loop with explicit fuel (the number of iterations the
    scheduler still allows); `none` means the loop is still running when the
    fuel runs out. -/
def wfcLoop (env : Env) : Nat → Nat → RunState → Option LoopExit × RunState
  | 0, _, st => (none, st)
  | fuel + 1, k, st =>
    match wfcIter env k st with
    | .inl st' => wfcLoop env fuel (k + 1) st'
    | .inr (ex, st') => (some ex, st')

/-- Outcome of a `wait_for_completion` run: a normal return, one of the two
    raised `CuckooGuestError`s, a propagated exception from `get_error` or
    from `take_mem_dump`, or still running (fuel exhausted). -/
inductive Outcome where
  | completed
  | failedErr (msg : String)
  | timedOut
  | commError (e : String)
  | dumpError (e : String)
  | running
deriving DecidableEq, Repr

/-- Model of `GuestManager.wait_for_completion` (guest.py lines 199-263):
    start the `ResumableTimer` whose callback sets the abort flag, read the
    `memoryanalysis.conf` values (`max_number_of_dumps` is read into a local
    that is never used again), create the dump directories, run the polling
    loop, and on the Completed `break` clear the server timeout and take the
    final End dump before returning.  No path calls `cancel()` on the
    timer. -/
def wait_for_completion (env : Env) (fuel : Nat) : Outcome × RunState :=
  let _number_of_dumps := env.max_number_of_dumps
  match wfcLoop env fuel 0
      { sec_counter := 0, entries := env.initialEntries, trace := [Ev.timerStart] } with
  | (none, st) => (.running, st)
  | (some .brk, st) =>
    match take_mem_dump env.dumps_dir st.entries endInfo with
    | .error e => (.dumpError e, { st with trace := st.trace ++ [Ev.setTimeoutNone] })
    | .ok (i, _acts) =>
      (.completed, { st with entries := toString i :: st.entries,
                             trace := st.trace ++ [Ev.setTimeoutNone, Ev.dump i endInfo] })
  | (some .timedOut, st) => (.timedOut, st)
  | (some (.failedErr m), st) => (.failedErr m, st)
  | (some (.commError e), st) => (.commError e, st)
  | (some (.dumpError e), st) => (.dumpError e, st)

/-- Outcome of a `GuestManager.wait` run. -/
inductive WaitOutcome where
  | success
  | timedOut
  | running
deriving DecidableEq, Repr

/-- The loop of `GuestManager.wait` (guest.py lines 70-87): raise a
    `CuckooGuestError` when the abort flag is set, `break` when
    `get_status()` equals the wanted status (then `_set_timeout(None)` and
    return True), swallow any query exception, sleep and retry. -/
def waitLoop (env : Env) (target : Int) : Nat → Nat → List Ev → WaitOutcome × List Ev
  | 0, _, tr => (.running, tr)
  | fuel + 1, k, tr =>
    if env.abortAt k then (.timedOut, tr)
    else
      match env.statusAt k with
      | .ok s =>
        if s == target then (.success, tr ++ [Ev.setTimeoutNone])
        else waitLoop env target fuel (k + 1) tr
      | .error _e => waitLoop env target fuel (k + 1) tr

/-- Model of `GuestManager.wait` (guest.py lines 50-90): start a
    `threading.Timer` whose `die` callback sets the local abort flag, set
    the server timeout, then poll.  No path calls `timer.cancel()`. -/
def GuestManager.wait (env : Env) (target : Int) (fuel : Nat) :
    WaitOutcome × List Ev :=
  waitLoop env target fuel 0 [Ev.timerStart]

/-- Whether an event is a snapshot with the terminal (End) trigger. -/
def isEndDump : Ev → Bool
  | .dump _ info => info.trigger_name == "End"
  | _ => false

/-- Number of terminal (End-triggered) snapshots in a trace. -/
def countEnd (tr : List Ev) : Nat := (tr.filter isEndDump).length

/-- Whether an outcome is one of the three terminal transitions of the
    supervisor: normal completion, remote-reported failure, or critical
    timeout. -/
def isTerminal : Outcome → Bool
  | .completed => true
  | .failedErr _ => true
  | .timedOut => true
  | _ => false

/-! ### Facts about the index computation -/

lemma foldl_max_le_init (vs : List Int) : ∀ a : Int, a ≤ vs.foldl max a := by
  induction vs with
  | nil => intro a; simp
  | cons w ws ih =>
    intro a
    calc a ≤ max a w := le_max_left a w
    _ ≤ ws.foldl max (max a w) := ih (max a w)

lemma foldl_max_mono (vs : List Int) :
    ∀ a b : Int, a ≤ b → vs.foldl max a ≤ vs.foldl max b := by
  induction vs with
  | nil => intro a b h; simpa using h
  | cons w ws ih =>
    intro a b h
    simpa using ih (max a w) (max b w) (max_le_max h le_rfl)

lemma mem_le_foldl_max (vs : List Int) :
    ∀ a x : Int, x ∈ a :: vs → x ≤ vs.foldl max a := by
  induction vs with
  | nil => intro a x hx; simp at hx; simp [hx]
  | cons w ws ih =>
    intro a x hx
    rcases List.mem_cons.mp hx with h | h
    · subst h
      calc x ≤ max x w := le_max_left x w
      _ ≤ ws.foldl max (max x w) := foldl_max_le_init ws (max x w)
    · calc x ≤ ws.foldl max w := ih w x h
      _ ≤ ws.foldl max (max a w) := foldl_max_mono ws w (max a w) (le_max_right a w)

lemma foldl_max_mem (vs : List Int) : ∀ a : Int, vs.foldl max a ∈ a :: vs := by
  induction vs with
  | nil => intro a; simp
  | cons w ws ih =>
    intro a
    have h := ih (max a w)
    rcases List.mem_cons.mp h with h | h
    · rcases max_choice a w with hc | hc <;> simp only [List.foldl_cons] <;> rw [h, hc]
      · exact List.mem_cons_self _ _
      · exact List.mem_cons_of_mem _ (List.mem_cons_self _ _)
    · exact List.mem_cons_of_mem _ (List.mem_cons_of_mem _ h)

lemma traverseOpt_mem_of (f : String → Option Int) :
    ∀ (xs : List String) (l : List Int), traverseOpt f xs = some l →
      ∀ e ∈ xs, ∀ v, f e = some v → v ∈ l := by
  intro xs
  induction xs with
  | nil => intro l h e he; simp at he
  | cons x xs ih =>
    intro l h e he v hv
    simp only [traverseOpt] at h
    rcases hx : f x with _ | vx <;> rw [hx] at h
    · exact absurd h (by simp)
    rcases hxs : traverseOpt f xs with _ | vs <;> rw [hxs] at h
    · exact absurd h (by simp)
    simp only [Option.some.injEq] at h
    subst h
    rcases List.mem_cons.mp he with h | h
    · subst h
      rw [hx] at hv
      simp only [Option.some.injEq] at hv
      simp [hv]
    · exact List.mem_cons_of_mem _ (ih vs hxs e h v hv)

lemma traverseOpt_of_mem (f : String → Option Int) :
    ∀ (xs : List String) (l : List Int), traverseOpt f xs = some l →
      ∀ v ∈ l, ∃ e ∈ xs, f e = some v := by
  intro xs
  induction xs with
  | nil =>
    intro l h v hv
    simp only [traverseOpt, Option.some.injEq] at h
    subst h
    simp at hv
  | cons x xs ih =>
    intro l h v hv
    simp only [traverseOpt] at h
    rcases hx : f x with _ | vx <;> rw [hx] at h
    · exact absurd h (by simp)
    rcases hxs : traverseOpt f xs with _ | vs <;> rw [hxs] at h
    · exact absurd h (by simp)
    simp only [Option.some.injEq] at h
    subst h
    rcases List.mem_cons.mp hv with h | h
    · subst h
      exact ⟨x, List.mem_cons_self _ _, hx⟩
    · rcases ih vs hxs v h with ⟨e, he, hfe⟩
      exact ⟨e, List.mem_cons_of_mem _ he, hfe⟩

lemma traverseOpt_none (f : String → Option Int) :
    ∀ (xs : List String), (∃ e ∈ xs, f e = none) → traverseOpt f xs = none := by
  intro xs
  induction xs with
  | nil => intro h; simp at h
  | cons x xs ih =>
    intro h
    rcases h with ⟨e, he, hfe⟩
    rcases List.mem_cons.mp he with h | h
    · subst h
      simp [traverseOpt, hfe]
    · rw [traverseOpt, ih ⟨e, h, hfe⟩]
      rcases f x <;> simp

lemma traverseOpt_isSome (f : String → Option Int) :
    ∀ (xs : List String), (∀ e ∈ xs, (f e).isSome) →
      ∃ l, traverseOpt f xs = some l ∧ l.length = xs.length := by
  intro xs
  induction xs with
  | nil => intro h; exact ⟨[], rfl, rfl⟩
  | cons x xs ih =>
    intro h
    rcases Option.isSome_iff_exists.mp (h x (List.mem_cons_self _ _)) with ⟨vx, hvx⟩
    rcases ih (fun e he => h e (List.mem_cons_of_mem _ he)) with ⟨l, hl, hlen⟩
    exact ⟨vx :: l, by simp [traverseOpt, hvx, hl], by simp [hlen]⟩

lemma nextIndex_props (entries : List String) (i : Int)
    (h : nextIndex entries = .ok i) :
    (entries = [] → i = 1) ∧
    (∀ e ∈ entries, ∀ v, pyInt? e = some v → v < i) ∧
    (entries ≠ [] → ∃ e ∈ entries, pyInt? e = some (i - 1)) := by
  unfold nextIndex at h
  rcases ht : traverseOpt pyInt? entries with _ | l <;> rw [ht] at h
  · exact absurd h (by simp)
  rcases l with _ | ⟨v, vs⟩
  · simp only [Except.ok.injEq] at h
    have hnil : entries = [] := by
      cases entries with
      | nil => rfl
      | cons x xs =>
        exfalso
        simp only [traverseOpt] at ht
        rcases hx : pyInt? x with _ | vx <;> rw [hx] at ht <;>
          rcases hxs : traverseOpt pyInt? xs with _ | vs <;> rw [hxs] at ht <;>
          simp at ht
    refine ⟨fun _ => h.symm, ?_, ?_⟩
    · intro e he; rw [hnil] at he; simp at he
    · intro hne; exact absurd hnil hne
  · simp only [Except.ok.injEq] at h
    constructor
    · intro hnil
      rw [hnil] at ht
      simp only [traverseOpt, Option.some.injEq] at ht
      exact absurd ht.symm (by simp)
    constructor
    · intro e he w hw
      have hwl : w ∈ v :: vs := traverseOpt_mem_of pyInt? entries (v :: vs) ht e he w hw
      have := mem_le_foldl_max vs v w hwl
      omega
    · intro _
      have hmem : vs.foldl max v ∈ v :: vs := foldl_max_mem vs v
      rcases traverseOpt_of_mem pyInt? entries (v :: vs) ht _ hmem with ⟨e, he, hfe⟩
      refine ⟨e, he, ?_⟩
      rw [hfe]
      congr 1
      omega

/-! ### Trace shape of the completion loop -/

/-- Events the completion loop may append on an iteration that does not take
    a terminal snapshot: the timer pause and resume calls and periodic
    Time-triggered dumps (whose metadata has no `time` key). -/
inductive PerEv (env : Env) : Ev → Prop
  | stop : PerEv env Ev.timerStop
  | resume : PerEv env Ev.timerResume
  | dump (j : Int) : PerEv env (Ev.dump j (timeInfo env.time_to_sleep))

lemma PerEv.not_end {env : Env} {ev : Ev} (h : PerEv env ev) :
    isEndDump ev = false := by
  cases h <;> rfl

lemma perEv_append (env : Env) {a b : List Ev}
    (ha : ∀ ev ∈ a, PerEv env ev) (hb : ∀ ev ∈ b, PerEv env ev) :
    ∀ ev ∈ a ++ b, PerEv env ev := by
  intro ev hev
  rcases List.mem_append.mp hev with h | h
  · exact ha ev h
  · exact hb ev h

lemma countEnd_append (a b : List Ev) :
    countEnd (a ++ b) = countEnd a + countEnd b := by
  simp [countEnd, List.filter_append]

lemma countEnd_perEv (env : Env) (l : List Ev)
    (h : ∀ ev ∈ l, PerEv env ev) : countEnd l = 0 := by
  induction l with
  | nil => rfl
  | cons ev l ih =>
    have h1 := (h ev (List.mem_cons_self _ _)).not_end
    have h2 := ih (fun e he => h e (List.mem_cons_of_mem _ he))
    simp [countEnd, List.filter_cons, h1] at *
    exact h2

lemma periodicStep_inl_shape (env : Env) (st : RunState) (e : String)
    (st1 : RunState) (h : periodicStep env st = .inl (e, st1)) :
    ∃ nw, st1.trace = st.trace ++ nw ∧ ∀ ev ∈ nw, PerEv env ev := by
  unfold periodicStep at h
  split at h
  · split at h
    · simp only [Sum.inl.injEq, Prod.mk.injEq] at h
      refine ⟨[Ev.timerStop], ?_, ?_⟩
      · rw [← h.2]
      · intro ev hev
        simp only [List.mem_singleton] at hev
        subst hev
        exact PerEv.stop
    · exact absurd h (by simp)
  · exact absurd h (by simp)

lemma periodicStep_inr_shape (env : Env) (st : RunState)
    (st1 : RunState) (h : periodicStep env st = .inr st1) :
    ∃ nw, st1.trace = st.trace ++ nw ∧ ∀ ev ∈ nw, PerEv env ev := by
  unfold periodicStep at h
  split at h
  · split at h
    · exact absurd h (by simp)
    · rename_i i acts heq
      simp only [Sum.inr.injEq] at h
      refine ⟨[Ev.timerStop, Ev.dump i (timeInfo env.time_to_sleep), Ev.timerResume],
              ?_, ?_⟩
      · rw [← h]
      · intro ev hev
        rcases List.mem_cons.mp hev with h1 | h1
        · subst h1; exact PerEv.stop
        rcases List.mem_cons.mp h1 with h2 | h2
        · subst h2; exact PerEv.dump i
        · simp only [List.mem_singleton] at h2
          subst h2
          exact PerEv.resume
  · simp only [Sum.inr.injEq] at h
    exact ⟨[], by rw [← h]; simp, by simp⟩

lemma stopWait_eq (st : RunState) : stopWait st = st := rfl

lemma incCounter_trace (st : RunState) : (incCounter st).trace = st.trace := rfl

lemma wfcIter_inl_shape (env : Env) (k : Nat) (st st' : RunState)
    (h : wfcIter env k st = .inl st') :
    ∃ nw, st'.trace = st.trace ++ nw ∧ ∀ ev ∈ nw, PerEv env ev := by
  unfold wfcIter at h
  rw [stopWait_eq] at h
  split at h
  · split at h <;> simp at h
  · split at h
    · simp at h
    · rename_i st1 hps
      rcases periodicStep_inr_shape env (incCounter st) st1 hps with ⟨nw, htr, hok⟩
      split at h
      · simp only [Sum.inl.injEq] at h
        subst h
        exact ⟨nw, by rw [htr]; rfl, hok⟩
      · split at h
        · simp at h
        · split at h
          · split at h
            · simp at h
            · split at h <;> simp at h
          · simp only [Sum.inl.injEq] at h
            subst h
            exact ⟨nw, by rw [htr]; rfl, hok⟩

lemma wfcIter_brk_shape (env : Env) (k : Nat) (st st' : RunState)
    (h : wfcIter env k st = .inr (.brk, st')) :
    ∃ nw, st'.trace = st.trace ++ nw ∧ ∀ ev ∈ nw, PerEv env ev := by
  unfold wfcIter at h
  rw [stopWait_eq] at h
  split at h
  · split at h <;> simp at h
  · split at h
    · simp at h
    · rename_i st1 hps
      rcases periodicStep_inr_shape env (incCounter st) st1 hps with ⟨nw, htr, hok⟩
      split at h
      · simp at h
      · split at h
        · simp only [Sum.inr.injEq, Prod.mk.injEq, true_and] at h
          subst h
          exact ⟨nw, by rw [htr]; rfl, hok⟩
        · split at h
          · split at h
            · simp at h
            · split at h <;> simp at h
          · simp at h

lemma wfcIter_comm_shape (env : Env) (k : Nat) (st : RunState) (e : String)
    (st' : RunState) (h : wfcIter env k st = .inr (.commError e, st')) :
    ∃ nw, st'.trace = st.trace ++ nw ∧ ∀ ev ∈ nw, PerEv env ev := by
  unfold wfcIter at h
  rw [stopWait_eq] at h
  split at h
  · split at h <;> simp at h
  · split at h
    · simp at h
    · rename_i st1 hps
      rcases periodicStep_inr_shape env (incCounter st) st1 hps with ⟨nw, htr, hok⟩
      split at h
      · simp at h
      · split at h
        · simp at h
        · split at h
          · split at h
            · simp only [Sum.inr.injEq, Prod.mk.injEq, LoopExit.commError.injEq] at h
              rcases h with ⟨_, h2⟩
              subst h2
              exact ⟨nw, by rw [htr]; rfl, hok⟩
            · split at h <;> simp at h
          · simp at h

lemma wfcIter_dumpErr_shape (env : Env) (k : Nat) (st : RunState) (e : String)
    (st' : RunState) (h : wfcIter env k st = .inr (.dumpError e, st')) :
    ∃ nw, st'.trace = st.trace ++ nw ∧ ∀ ev ∈ nw, PerEv env ev := by
  unfold wfcIter at h
  rw [stopWait_eq] at h
  split at h
  · split at h
    · simp only [Sum.inr.injEq, Prod.mk.injEq, LoopExit.dumpError.injEq] at h
      rcases h with ⟨_, h2⟩
      subst h2
      exact ⟨[], by simp, by simp⟩
    · simp at h
  · split at h
    · rename_i e1 st1 hps
      simp only [Sum.inr.injEq, Prod.mk.injEq, LoopExit.dumpError.injEq] at h
      rcases periodicStep_inl_shape env (incCounter st) e1 st1 hps with ⟨nw, htr, hok⟩
      rw [← h.2]
      exact ⟨nw, by rw [htr]; rfl, hok⟩
    · rename_i st1 hps
      rcases periodicStep_inr_shape env (incCounter st) st1 hps with ⟨nw, htr, hok⟩
      split at h
      · simp at h
      · split at h
        · simp at h
        · split at h
          · split at h
            · simp at h
            · split at h
              · simp only [Sum.inr.injEq, Prod.mk.injEq, LoopExit.dumpError.injEq] at h
                rcases h with ⟨_, h2⟩
                subst h2
                exact ⟨nw, by rw [htr]; rfl, hok⟩
              · simp at h
          · simp at h

lemma wfcIter_timeout_shape (env : Env) (k : Nat) (st st' : RunState)
    (h : wfcIter env k st = .inr (.timedOut, st')) :
    ∃ j, st'.trace = st.trace ++ [Ev.dump j (endInfoTimed st.sec_counter)] := by
  unfold wfcIter at h
  rw [stopWait_eq] at h
  split at h
  · split at h
    · simp at h
    · rename_i i acts heq
      simp only [Sum.inr.injEq, Prod.mk.injEq, true_and] at h
      subst h
      exact ⟨i, rfl⟩
  · split at h
    · simp at h
    · split at h
      · simp at h
      · split at h
        · simp at h
        · split at h
          · split at h
            · simp at h
            · split at h <;> simp at h
          · simp at h

lemma wfcIter_failed_shape (env : Env) (k : Nat) (st : RunState) (m : String)
    (st' : RunState) (h : wfcIter env k st = .inr (.failedErr m, st')) :
    ∃ nw j, st'.trace = st.trace ++ (nw ++ [Ev.dump j endInfo]) ∧
      ∀ ev ∈ nw, PerEv env ev := by
  unfold wfcIter at h
  rw [stopWait_eq] at h
  split at h
  · split at h <;> simp at h
  · split at h
    · simp at h
    · rename_i st1 hps
      rcases periodicStep_inr_shape env (incCounter st) st1 hps with ⟨nw, htr, hok⟩
      split at h
      · simp at h
      · split at h
        · simp at h
        · split at h
          · split at h
            · simp at h
            · split at h
              · simp at h
              · rename_i i acts heq
                simp only [Sum.inr.injEq, Prod.mk.injEq, LoopExit.failedErr.injEq] at h
                rcases h with ⟨_, h2⟩
                subst h2
                refine ⟨nw, i, ?_, hok⟩
                show st1.trace ++ [Ev.dump i endInfo] = _
                rw [htr, incCounter_trace]
                simp
          · simp at h

/-- The trace `tr` extends `base` only by pause/resume events and periodic
    Time-triggered dumps. -/
def growsBy (env : Env) (base tr : List Ev) : Prop :=
  ∃ nw, tr = base ++ nw ∧ ∀ ev ∈ nw, PerEv env ev

/-- The trace `tr` extends `base` by pause/resume events and periodic dumps
    followed by exactly one final dump carrying `info`. -/
def growsByEnd (env : Env) (base tr : List Ev) (info : InfoDict) : Prop :=
  ∃ nw j, tr = base ++ (nw ++ [Ev.dump j info]) ∧ ∀ ev ∈ nw, PerEv env ev

lemma growsBy_refl (env : Env) (a : List Ev) : growsBy env a a :=
  ⟨[], by simp, by simp⟩

lemma growsBy_trans (env : Env) {a b c : List Ev}
    (h1 : growsBy env a b) (h2 : growsBy env b c) : growsBy env a c := by
  rcases h1 with ⟨nw1, e1, k1⟩
  rcases h2 with ⟨nw2, e2, k2⟩
  exact ⟨nw1 ++ nw2, by rw [e2, e1, List.append_assoc], perEv_append env k1 k2⟩

lemma growsBy_end_trans (env : Env) {a b c : List Ev} {info : InfoDict}
    (h1 : growsBy env a b) (h2 : growsByEnd env b c info) :
    growsByEnd env a c info := by
  rcases h1 with ⟨nw1, e1, k1⟩
  rcases h2 with ⟨nw2, j, e2, k2⟩
  refine ⟨nw1 ++ nw2, j, ?_, perEv_append env k1 k2⟩
  rw [e2, e1]
  simp [List.append_assoc]

lemma countEnd_growsBy (env : Env) {a b : List Ev} (h : growsBy env a b) :
    countEnd b = countEnd a := by
  rcases h with ⟨nw, e, k⟩
  rw [e, countEnd_append, countEnd_perEv env nw k]
  simp

lemma countEnd_growsByEnd (env : Env) {a b : List Ev} {info : InfoDict}
    (hinfo : info.trigger_name = "End") (h : growsByEnd env a b info) :
    countEnd b = countEnd a + 1 := by
  rcases h with ⟨nw, j, e, k⟩
  rw [e, countEnd_append, countEnd_append, countEnd_perEv env nw k]
  have : isEndDump (Ev.dump j info) = true := by simp [isEndDump, hinfo]
  simp [countEnd, List.filter_cons, this]

lemma wfcLoop_none_shape (env : Env) : ∀ (fuel k : Nat) (st st' : RunState),
    wfcLoop env fuel k st = (none, st') → growsBy env st.trace st'.trace := by
  intro fuel
  induction fuel with
  | zero =>
    intro k st st' h
    simp only [wfcLoop, Prod.mk.injEq] at h
    rw [← h.2]
    exact growsBy_refl env st.trace
  | succ f ih =>
    intro k st st' h
    rw [wfcLoop] at h
    rcases hit : wfcIter env k st with st2 | ⟨ex, st2⟩ <;> rw [hit] at h
    · rcases wfcIter_inl_shape env k st st2 hit with ⟨nw, htr, hok⟩
      exact growsBy_trans env ⟨nw, htr, hok⟩ (ih (k + 1) st2 st' h)
    · simp at h

lemma wfcLoop_brk_shape (env : Env) : ∀ (fuel k : Nat) (st st' : RunState),
    wfcLoop env fuel k st = (some .brk, st') → growsBy env st.trace st'.trace := by
  intro fuel
  induction fuel with
  | zero => intro k st st' h; simp [wfcLoop] at h
  | succ f ih =>
    intro k st st' h
    rw [wfcLoop] at h
    rcases hit : wfcIter env k st with st2 | ⟨ex, st2⟩ <;> rw [hit] at h
    · rcases wfcIter_inl_shape env k st st2 hit with ⟨nw, htr, hok⟩
      exact growsBy_trans env ⟨nw, htr, hok⟩ (ih (k + 1) st2 st' h)
    · simp only [Prod.mk.injEq, Option.some.injEq] at h
      rcases h with ⟨h1, h2⟩
      subst h1
      rw [← h2]
      rcases wfcIter_brk_shape env k st st2 hit with ⟨nw, htr, hok⟩
      exact ⟨nw, htr, hok⟩

lemma wfcLoop_comm_shape (env : Env) : ∀ (fuel k : Nat) (st : RunState)
    (e : String) (st' : RunState),
    wfcLoop env fuel k st = (some (.commError e), st') →
    growsBy env st.trace st'.trace := by
  intro fuel
  induction fuel with
  | zero => intro k st e st' h; simp [wfcLoop] at h
  | succ f ih =>
    intro k st e st' h
    rw [wfcLoop] at h
    rcases hit : wfcIter env k st with st2 | ⟨ex, st2⟩ <;> rw [hit] at h
    · rcases wfcIter_inl_shape env k st st2 hit with ⟨nw, htr, hok⟩
      exact growsBy_trans env ⟨nw, htr, hok⟩ (ih (k + 1) st2 e st' h)
    · simp only [Prod.mk.injEq, Option.some.injEq] at h
      rcases h with ⟨h1, h2⟩
      subst h1
      rw [← h2]
      rcases wfcIter_comm_shape env k st e st2 hit with ⟨nw, htr, hok⟩
      exact ⟨nw, htr, hok⟩

lemma wfcLoop_dumpErr_shape (env : Env) : ∀ (fuel k : Nat) (st : RunState)
    (e : String) (st' : RunState),
    wfcLoop env fuel k st = (some (.dumpError e), st') →
    growsBy env st.trace st'.trace := by
  intro fuel
  induction fuel with
  | zero => intro k st e st' h; simp [wfcLoop] at h
  | succ f ih =>
    intro k st e st' h
    rw [wfcLoop] at h
    rcases hit : wfcIter env k st with st2 | ⟨ex, st2⟩ <;> rw [hit] at h
    · rcases wfcIter_inl_shape env k st st2 hit with ⟨nw, htr, hok⟩
      exact growsBy_trans env ⟨nw, htr, hok⟩ (ih (k + 1) st2 e st' h)
    · simp only [Prod.mk.injEq, Option.some.injEq] at h
      rcases h with ⟨h1, h2⟩
      subst h1
      rw [← h2]
      rcases wfcIter_dumpErr_shape env k st e st2 hit with ⟨nw, htr, hok⟩
      exact ⟨nw, htr, hok⟩

lemma wfcLoop_timeout_shape (env : Env) : ∀ (fuel k : Nat) (st st' : RunState),
    wfcLoop env fuel k st = (some .timedOut, st') →
    ∃ sc, growsByEnd env st.trace st'.trace (endInfoTimed sc) := by
  intro fuel
  induction fuel with
  | zero => intro k st st' h; simp [wfcLoop] at h
  | succ f ih =>
    intro k st st' h
    rw [wfcLoop] at h
    rcases hit : wfcIter env k st with st2 | ⟨ex, st2⟩ <;> rw [hit] at h
    · rcases wfcIter_inl_shape env k st st2 hit with ⟨nw, htr, hok⟩
      rcases ih (k + 1) st2 st' h with ⟨sc, hend⟩
      exact ⟨sc, growsBy_end_trans env ⟨nw, htr, hok⟩ hend⟩
    · simp only [Prod.mk.injEq, Option.some.injEq] at h
      rcases h with ⟨h1, h2⟩
      subst h1
      rw [← h2]
      rcases wfcIter_timeout_shape env k st st2 hit with ⟨j, htr⟩
      exact ⟨st.sec_counter, ⟨[], j, by simpa using htr, by simp⟩⟩

lemma wfcLoop_failed_shape (env : Env) : ∀ (fuel k : Nat) (st : RunState)
    (m : String) (st' : RunState),
    wfcLoop env fuel k st = (some (.failedErr m), st') →
    growsByEnd env st.trace st'.trace endInfo := by
  intro fuel
  induction fuel with
  | zero => intro k st m st' h; simp [wfcLoop] at h
  | succ f ih =>
    intro k st m st' h
    rw [wfcLoop] at h
    rcases hit : wfcIter env k st with st2 | ⟨ex, st2⟩ <;> rw [hit] at h
    · rcases wfcIter_inl_shape env k st st2 hit with ⟨nw, htr, hok⟩
      exact growsBy_end_trans env ⟨nw, htr, hok⟩ (ih (k + 1) st2 m st' h)
    · simp only [Prod.mk.injEq, Option.some.injEq] at h
      rcases h with ⟨h1, h2⟩
      subst h1
      rw [← h2]
      rcases wfcIter_failed_shape env k st m st2 hit with ⟨nw, j, htr, hok⟩
      exact ⟨nw, j, htr, hok⟩

/-- The run state carried by an iteration result, whether the loop
    continues or exits. -/
def iterState : RunState ⊕ (LoopExit × RunState) → RunState
  | .inl st => st
  | .inr (_, st) => st

lemma mem_growsBy (env : Env) {base tr : List Ev} (hg : growsBy env base tr)
    {ev : Ev} (h : ev ∈ tr) : ev ∈ base ∨ PerEv env ev := by
  rcases hg with ⟨nw, e, k⟩
  subst e
  rcases List.mem_append.mp h with h1 | h1
  · exact Or.inl h1
  · exact Or.inr (k ev h1)

lemma mem_growsByEnd (env : Env) {base tr : List Ev} {info : InfoDict}
    (hg : growsByEnd env base tr info) {ev : Ev} (h : ev ∈ tr) :
    ev ∈ base ∨ PerEv env ev ∨ ∃ j, ev = Ev.dump j info := by
  rcases hg with ⟨nw, j, e, k⟩
  subst e
  rcases List.mem_append.mp h with h1 | h1
  · exact Or.inl h1
  rcases List.mem_append.mp h1 with h2 | h2
  · exact Or.inr (Or.inl (k ev h2))
  · simp only [List.mem_singleton] at h2
    exact Or.inr (Or.inr ⟨j, h2⟩)

/-- Every event in the trace of a `wait_for_completion` run is the timer
    start, the server-timeout reset, a pause/resume/periodic-dump event, or
    a terminal dump with the End trigger. -/
lemma trace_mem_shape (env : Env) (fuel : Nat) (ev : Ev)
    (h : ev ∈ (wait_for_completion env fuel).2.trace) :
    ev = Ev.timerStart ∨ ev = Ev.setTimeoutNone ∨ PerEv env ev ∨
    ∃ j info, ev = Ev.dump j info ∧ info.trigger_name = "End" := by
  rcases hl : wfcLoop env fuel 0
      { sec_counter := 0, entries := env.initialEntries,
        trace := [Ev.timerStart] } with ⟨oex, st⟩
  match oex with
  | none =>
    simp only [wait_for_completion, hl] at h
    rcases mem_growsBy env (wfcLoop_none_shape env fuel 0 _ st hl) h with h1 | h1
    · simp only [List.mem_singleton] at h1
      exact Or.inl h1
    · exact Or.inr (Or.inr (Or.inl h1))
  | some .brk =>
    rcases hd : take_mem_dump env.dumps_dir st.entries endInfo with e | ⟨i, acts⟩
    · simp only [wait_for_completion, hl, hd] at h
      rcases List.mem_append.mp h with h1 | h1
      · rcases mem_growsBy env (wfcLoop_brk_shape env fuel 0 _ st hl) h1 with h2 | h2
        · simp only [List.mem_singleton] at h2
          exact Or.inl h2
        · exact Or.inr (Or.inr (Or.inl h2))
      · simp only [List.mem_singleton] at h1
        exact Or.inr (Or.inl h1)
    · simp only [wait_for_completion, hl, hd] at h
      rcases List.mem_append.mp h with h1 | h1
      · rcases mem_growsBy env (wfcLoop_brk_shape env fuel 0 _ st hl) h1 with h2 | h2
        · simp only [List.mem_singleton] at h2
          exact Or.inl h2
        · exact Or.inr (Or.inr (Or.inl h2))
      · rcases List.mem_cons.mp h1 with h2 | h2
        · exact Or.inr (Or.inl h2)
        · simp only [List.mem_singleton] at h2
          exact Or.inr (Or.inr (Or.inr ⟨i, endInfo, h2, rfl⟩))
  | some .timedOut =>
    simp only [wait_for_completion, hl] at h
    rcases wfcLoop_timeout_shape env fuel 0 _ st hl with ⟨sc, hend⟩
    rcases mem_growsByEnd env hend h with h1 | h1 | ⟨j, h1⟩
    · simp only [List.mem_singleton] at h1
      exact Or.inl h1
    · exact Or.inr (Or.inr (Or.inl h1))
    · exact Or.inr (Or.inr (Or.inr ⟨j, endInfoTimed sc, h1, rfl⟩))
  | some (.failedErr m) =>
    simp only [wait_for_completion, hl] at h
    rcases mem_growsByEnd env (wfcLoop_failed_shape env fuel 0 _ m st hl) h with
      h1 | h1 | ⟨j, h1⟩
    · simp only [List.mem_singleton] at h1
      exact Or.inl h1
    · exact Or.inr (Or.inr (Or.inl h1))
    · exact Or.inr (Or.inr (Or.inr ⟨j, endInfo, h1, rfl⟩))
  | some (.commError e) =>
    simp only [wait_for_completion, hl] at h
    rcases mem_growsBy env (wfcLoop_comm_shape env fuel 0 _ e st hl) h with h1 | h1
    · simp only [List.mem_singleton] at h1
      exact Or.inl h1
    · exact Or.inr (Or.inr (Or.inl h1))
  | some (.dumpError e) =>
    simp only [wait_for_completion, hl] at h
    rcases mem_growsBy env (wfcLoop_dumpErr_shape env fuel 0 _ e st hl) h with h1 | h1
    · simp only [List.mem_singleton] at h1
      exact Or.inl h1
    · exact Or.inr (Or.inr (Or.inl h1))

/-! ### Facts about the resumable timer -/

lemma tick_stopped (tm : RTimer) (hs : tm.stopev = true)
    (hf : tm.finished = false) (ht : tm.t < tm.interval) : tm.tick = tm := by
  unfold RTimer.tick
  simp [hf, hs, Nat.not_le.mpr ht]

lemma tickN_stopped (tm : RTimer) (hf : tm.finished = false)
    (ht : tm.t < tm.interval) :
    ∀ n, (RTimer.stop tm).tickN n = RTimer.stop tm := by
  intro n
  induction n with
  | zero => rfl
  | succ m ih =>
    rw [RTimer.tickN, ih]
    exact tick_stopped (RTimer.stop tm) rfl hf ht

lemma tickN_counts (I : Nat) : ∀ (k t : Nat), t + k ≤ I →
    (RTimer.mk I t false false false).tickN k =
      RTimer.mk I (t + k) false false false := by
  intro k
  induction k with
  | zero => intro t h; rfl
  | succ n ih =>
    intro t h
    have hlt : ¬ I ≤ t + n := by omega
    have hd : (RTimer.mk I (t + n) false false false).tick
        = RTimer.mk I (t + n + 1) false false false := by
      unfold RTimer.tick
      rw [decide_eq_false hlt]
      rfl
    rw [RTimer.tickN, ih t (by omega), hd]
    rfl

/-- A timer that is started, never paused and never cancelled invokes its
    callback once one tick past its budget has elapsed. -/
lemma timer_fires (I : Nat) :
    ((RTimer.mk I 0 false false false).tickN (I + 1)).fired = true := by
  rw [RTimer.tickN, tickN_counts I I 0 (by omega), Nat.zero_add]
  unfold RTimer.tick
  rw [decide_eq_true (Nat.le_refl I)]
  rfl

/-! ### Facts about the status wait -/

lemma waitLoop_trace (env : Env) (target : Int) :
    ∀ (fuel k : Nat) (tr : List Ev),
      (waitLoop env target fuel k tr).2 = tr ∨
      (waitLoop env target fuel k tr).2 = tr ++ [Ev.setTimeoutNone] := by
  intro fuel
  induction fuel with
  | zero => intro k tr; exact Or.inl rfl
  | succ f ih =>
    intro k tr
    rw [waitLoop]
    by_cases hab : env.abortAt k = true
    · rw [if_pos hab]
      exact Or.inl rfl
    · rw [if_neg hab]
      rcases hs : env.statusAt k with e | s
      · exact ih (k + 1) tr
      · dsimp only
        by_cases heq : (s == target) = true
        · rw [if_pos heq]
          exact Or.inr rfl
        · rw [if_neg heq]
          exact ih (k + 1) tr

/-! ### Configuration reads that do not influence the run -/

lemma wfcIter_ambient (env : Env) (b : Bool) (k : Nat) (st : RunState) :
    wfcIter { env with ambientStop := b } k st = wfcIter env k st := rfl

lemma wfcLoop_ambient (env : Env) (b : Bool) :
    ∀ (fuel k : Nat) (st : RunState),
      wfcLoop { env with ambientStop := b } fuel k st =
        wfcLoop env fuel k st := by
  intro fuel
  induction fuel with
  | zero => intro k st; rfl
  | succ f ih =>
    intro k st
    simp only [wfcLoop, wfcIter_ambient]
    rcases hit : wfcIter env k st with st2 | ⟨ex, st2⟩
    · simp only [hit]
      exact ih (k + 1) st2
    · simp only [hit]

lemma wfc_ambient (env : Env) (b : Bool) (fuel : Nat) :
    wait_for_completion { env with ambientStop := b } fuel =
      wait_for_completion env fuel := by
  simp only [wait_for_completion, wfcLoop_ambient]

lemma wfcIter_maxdumps (env : Env) (n : Int) (k : Nat) (st : RunState) :
    wfcIter { env with max_number_of_dumps := n } k st = wfcIter env k st := rfl

lemma wfcLoop_maxdumps (env : Env) (n : Int) :
    ∀ (fuel k : Nat) (st : RunState),
      wfcLoop { env with max_number_of_dumps := n } fuel k st =
        wfcLoop env fuel k st := by
  intro fuel
  induction fuel with
  | zero => intro k st; rfl
  | succ f ih =>
    intro k st
    simp only [wfcLoop, wfcIter_maxdumps]
    rcases hit : wfcIter env k st with st2 | ⟨ex, st2⟩
    · simp only [hit]
      exact ih (k + 1) st2
    · simp only [hit]

lemma wfc_maxdumps (env : Env) (n : Int) (fuel : Nat) :
    wait_for_completion { env with max_number_of_dumps := n } fuel =
      wait_for_completion env fuel := by
  simp only [wait_for_completion, wfcLoop_maxdumps]

/-! ### The metadata layout check used for claim C5 -/

/-- Check of one trace event against the actual metadata layout of the
    source, given whether the run ended by critical timeout: snapshots with
    the Time trigger never carry the `time` field, and snapshots with the
    End trigger carry it exactly when the run timed out. -/
def dumpFieldOK (timedOutRun : Bool) : Ev → Bool
  | .dump _ info =>
    if info.trigger_name == "Time" then info.time == none
    else if info.trigger_name == "End" then
      (if timedOutRun then info.time.isSome else info.time == none)
    else false
  | _ => true

lemma dumpFieldOK_perEv (env : Env) (b : Bool) {ev : Ev} (h : PerEv env ev) :
    dumpFieldOK b ev = true := by
  cases h <;> rfl

lemma all_dumpFieldOK (env : Env) (b : Bool) (l : List Ev)
    (h : ∀ ev ∈ l, PerEv env ev) : l.all (dumpFieldOK b) = true :=
  List.all_eq_true.mpr fun ev hev => dumpFieldOK_perEv env b (h ev hev)

/-! ### Claims -/

/-- C1: every terminal transition of the supervisor's completion wait
    (remote reports Completed, remote reports Failed, or the
    critical-timeout watchdog expires) takes exactly one final snapshot
    annotated with the terminal (End) trigger before the outcome is
    surfaced, in addition to whatever periodic snapshots were already
    taken: whenever a `wait_for_completion` run yields one of the three
    terminal outcomes, its trace contains exactly one End-triggered dump. -/
theorem C1_terminal_snapshot (env : Env) (fuel : Nat)
    (h : isTerminal (wait_for_completion env fuel).1 = true) :
    countEnd (wait_for_completion env fuel).2.trace = 1 := by
  rcases hl : wfcLoop env fuel 0
      { sec_counter := 0, entries := env.initialEntries,
        trace := [Ev.timerStart] } with ⟨oex, st⟩
  match oex with
  | none =>
    simp [wait_for_completion, hl, isTerminal] at h
  | some .brk =>
    rcases hd : take_mem_dump env.dumps_dir st.entries endInfo with e | ⟨i, acts⟩
    · simp [wait_for_completion, hl, hd, isTerminal] at h
    · have h0 : countEnd st.trace = 0 := by
        rw [countEnd_growsBy env (wfcLoop_brk_shape env fuel 0 _ st hl)]
        rfl
      simp only [wait_for_completion, hl, hd]
      rw [countEnd_append, h0]
      rfl
  | some .timedOut =>
    rcases wfcLoop_timeout_shape env fuel 0 _ st hl with ⟨sc, hend⟩
    have h1 := countEnd_growsByEnd env
      (show (endInfoTimed sc).trigger_name = "End" from rfl) hend
    simp only [wait_for_completion, hl]
    rw [h1]
    rfl
  | some (.failedErr m) =>
    have h1 := countEnd_growsByEnd env
      (show endInfo.trigger_name = "End" from rfl)
      (wfcLoop_failed_shape env fuel 0 _ m st hl)
    simp only [wait_for_completion, hl]
    rw [h1]
    rfl
  | some (.commError e) =>
    simp [wait_for_completion, hl, isTerminal] at h
  | some (.dumpError e) =>
    simp [wait_for_completion, hl, isTerminal] at h

/-- Environment of the C1 witness: the remote reports Completed on the
    first poll, no abort, periodic capture disabled. -/
def envW1 : Env :=
  { statusAt := fun _ => .ok CUCKOO_GUEST_COMPLETED,
    errorAt := fun _ => .ok "",
    abortAt := fun _ => false,
    ambientStop := false,
    time_based := false,
    time_to_sleep := 5,
    max_number_of_dumps := 10,
    dumps_dir := "dumps",
    initialEntries := [] }

/-- Witness for C1 at a concrete input: the run completes (a terminal
    outcome) and its trace holds exactly one End-triggered dump. -/
theorem C1_terminal_snapshot_witness :
    isTerminal (wait_for_completion envW1 1).1 = true ∧
    countEnd (wait_for_completion envW1 1).2.trace = 1 :=
  ⟨by decide, C1_terminal_snapshot envW1 1 (by decide)⟩

/-- Environment of the C2 counterexample: the status wait sees the wanted
    status immediately. -/
def envW2 : Env :=
  { statusAt := fun _ => .ok CUCKOO_GUEST_INIT,
    errorAt := fun _ => .ok "",
    abortAt := fun _ => false,
    ambientStop := false,
    time_based := false,
    time_to_sleep := 5,
    max_number_of_dumps := 10,
    dumps_dir := "dumps",
    initialEntries := [] }

/-- C2 counterexample: on the successful exit path of the status wait the
    watchdog timer is NOT cancelled — the run's trace records no cancel
    operation — and a timer that was never cancelled does fire its expire
    callback once its budget elapses (here budget 3 ticks, observed after 4
    ticks), so a stray late callback fires after the wait has ended,
    contradicting the claim. -/
theorem C2_counterexample :
    (GuestManager.wait envW2 CUCKOO_GUEST_INIT 1).1 = WaitOutcome.success ∧
    Ev.timerCancel ∉ (GuestManager.wait envW2 CUCKOO_GUEST_INIT 1).2 ∧
    ((RTimer.mk 3 0 false false false).tickN 4).fired = true := by
  refine ⟨by decide, by decide, by decide⟩

/-- C2 amended: no exit path of the status wait or of the completion wait
    ever cancels the watchdog timer (the traces never contain a cancel
    operation), and consequently a watchdog whose budget later elapses —
    started, never paused, never cancelled — fires its expire callback even
    though the wait has ended. -/
theorem C2_watchdog_never_cancelled :
    (∀ (env : Env) (target : Int) (fuel : Nat),
       Ev.timerCancel ∉ (GuestManager.wait env target fuel).2) ∧
    (∀ (env : Env) (fuel : Nat),
       Ev.timerCancel ∉ (wait_for_completion env fuel).2.trace) ∧
    (∀ I : Nat, ((RTimer.mk I 0 false false false).tickN (I + 1)).fired = true) := by
  refine ⟨?_, ?_, timer_fires⟩
  · intro env target fuel h
    rw [GuestManager.wait] at h
    rcases waitLoop_trace env target fuel 0 [Ev.timerStart] with h1 | h1 <;>
      rw [h1] at h <;> simp at h
  · intro env fuel h
    rcases trace_mem_shape env fuel Ev.timerCancel h with h1 | h1 | h1 | ⟨j, info, h1, _⟩
    · exact absurd h1 (by simp)
    · exact absurd h1 (by simp)
    · cases h1
    · exact absurd h1 (by simp)

/-- C3 counterexample: with the store listing `["1"]` a capture is assigned
    index 2, making the listing `["2", "1"]`; external cleanup then removes
    the directory `2`, and the next capture is assigned index 2 again — the
    index is reused, contradicting the claim that indices are never reused
    even if earlier directories are removed by external cleanup. -/
theorem C3_counterexample :
    takeDumpStore "dumps" ["1"] endInfo = .ok (2, ["2", "1"]) ∧
    (["2", "1"].erase "2") = ["1"] ∧
    takeDumpStore "dumps" (["2", "1"].erase "2") endInfo = .ok (2, ["2", "1"]) :=
  ⟨rfl, rfl, rfl⟩

/-- C3 amended: snapshot indices are strictly increasing across the
    captures of one analysis run provided the directory of the previous
    snapshot is still present in the listing at the next capture; if
    external cleanup removes the highest-indexed directory, an index can be
    reused.  Formally: when some entry of the current listing parses to the
    previously assigned index `i`, any index `j` the store assigns next
    satisfies `i < j`. -/
theorem C3_indices_increase (entries2 : List String) (i : Int) (e : String)
    (h1 : e ∈ entries2) (h2 : pyInt? e = some i)
    (j : Int) (hj : nextIndex entries2 = .ok j) : i < j :=
  (nextIndex_props entries2 j hj).2.1 e h1 i h2

/-- Witness for C3 amended at a concrete input: with listing
    `["1", "2"]` (the directory of the previous snapshot `2` still present)
    the next index is 3, strictly greater than 2. -/
theorem C3_indices_increase_witness :
    nextIndex ["1", "2"] = .ok 3 ∧ (2 : Int) < 3 :=
  ⟨rfl, C3_indices_increase ["1", "2"] 2 "2" (by decide) rfl 3 rfl⟩

/-- C4: for every call to `take_mem_dump` on a listing whose entries are
    all numeric (the claim's "existing numeric-named subdirectories"), the
    call succeeds; the new index is 1 when no subdirectory exists and
    otherwise exceeds every existing index and equals one plus an existing
    index (hence is the maximum plus one); and the filesystem actions are
    exactly the directory creation followed by the memory-dump write and the
    metadata write into that directory — the directory is created before
    any write into it. -/
theorem C4_index_assignment (dumps_dir : String) (json_obj : InfoDict)
    (entries : List String)
    (h : ∀ e ∈ entries, (pyInt? e).isSome) :
    ∃ i acts, take_mem_dump dumps_dir entries json_obj = .ok (i, acts) ∧
      (entries = [] → i = 1) ∧
      (∀ e ∈ entries, ∀ v, pyInt? e = some v → v < i) ∧
      (entries ≠ [] → ∃ e ∈ entries, pyInt? e = some (i - 1)) ∧
      acts = [FsAction.mkdir (dumps_dir ++ "/" ++ toString i),
              FsAction.dumpMemory (dumps_dir ++ "/" ++ toString i ++ "/memory.dmp"),
              FsAction.writeJson (dumps_dir ++ "/" ++ toString i ++ "/info.json")
                json_obj] := by
  rcases traverseOpt_isSome pyInt? entries h with ⟨l, hl, hlen⟩
  have hn : ∃ i, nextIndex entries = .ok i := by
    unfold nextIndex
    rw [hl]
    cases l with
    | nil => exact ⟨1, rfl⟩
    | cons v vs => exact ⟨vs.foldl max v + 1, rfl⟩
  rcases hn with ⟨i, hi⟩
  have hprops := nextIndex_props entries i hi
  refine ⟨i, _, ?_, hprops.1, hprops.2.1, hprops.2.2, rfl⟩
  unfold take_mem_dump
  rw [hi]

/-- Witness for C4 at a concrete input: listing `["2", "5", "3"]` is all
    numeric, and the theorem applies (the assigned index is then 6 with the
    directory created first). -/
theorem C4_index_assignment_witness :
    (∀ e ∈ ["2", "5", "3"], (pyInt? e).isSome) ∧
    (∃ i acts, take_mem_dump "dumps" ["2", "5", "3"] endInfo = .ok (i, acts) ∧
      ((["2", "5", "3"] : List String) = [] → i = 1) ∧
      (∀ e ∈ ["2", "5", "3"], ∀ v, pyInt? e = some v → v < i) ∧
      ((["2", "5", "3"] : List String) ≠ [] →
        ∃ e ∈ ["2", "5", "3"], pyInt? e = some (i - 1)) ∧
      acts = [FsAction.mkdir ("dumps" ++ "/" ++ toString i),
              FsAction.dumpMemory ("dumps" ++ "/" ++ toString i ++ "/memory.dmp"),
              FsAction.writeJson ("dumps" ++ "/" ++ toString i ++ "/info.json")
                endInfo]) :=
  ⟨by decide, C4_index_assignment "dumps" endInfo ["2", "5", "3"] (by decide)⟩

/-- Environment of the first C5 counterexample run: periodic capture
    enabled with interval 1, remote Completed on the first poll. -/
def envC5a : Env :=
  { statusAt := fun _ => .ok CUCKOO_GUEST_COMPLETED,
    errorAt := fun _ => .ok "",
    abortAt := fun _ => false,
    ambientStop := false,
    time_based := true,
    time_to_sleep := 1,
    max_number_of_dumps := 10,
    dumps_dir := "dumps",
    initialEntries := [] }

/-- Environment of the second C5 counterexample run: the abort flag is
    already set, so the run ends by critical timeout at once. -/
def envC5b : Env :=
  { statusAt := fun _ => .ok CUCKOO_GUEST_COMPLETED,
    errorAt := fun _ => .ok "",
    abortAt := fun _ => true,
    ambientStop := false,
    time_based := true,
    time_to_sleep := 1,
    max_number_of_dumps := 10,
    dumps_dir := "dumps",
    initialEntries := [] }

/-- C5 counterexample: a periodic (Time-triggered) snapshot's metadata has
    NO elapsed (`time`) value — refuting "present for periodic ones" — and
    the critical-timeout terminal snapshot's metadata HAS one — refuting
    "absent exactly for terminal-trigger snapshots". -/
theorem C5_counterexample :
    Ev.dump 1 { trigger_name := "Time", trigger_args := [("interval", 1)],
                time := none }
      ∈ (wait_for_completion envC5a 1).2.trace ∧
    (wait_for_completion envC5b 1).1 = Outcome.timedOut ∧
    Ev.dump 1 { trigger_name := "End", trigger_args := [], time := some "0" }
      ∈ (wait_for_completion envC5b 1).2.trace :=
  ⟨by decide, by decide, by decide⟩

/-- C5 amended: the metadata document of every snapshot records the trigger
    tag with its name and arguments; the elapsed cadence-counter value is
    ABSENT from periodic (Time-triggered) snapshots and from the Completed
    and Failed terminal snapshots, and is PRESENT exactly in the
    critical-timeout terminal snapshot: in every run, every dump event
    satisfies `dumpFieldOK` for the run's outcome. -/
theorem C5_metadata_time_field (env : Env) (fuel : Nat) :
    (wait_for_completion env fuel).2.trace.all
      (dumpFieldOK ((wait_for_completion env fuel).1 == Outcome.timedOut)) =
      true := by
  rcases hl : wfcLoop env fuel 0
      { sec_counter := 0, entries := env.initialEntries,
        trace := [Ev.timerStart] } with ⟨oex, st⟩
  match oex with
  | none =>
    simp only [wait_for_completion, hl]
    rcases wfcLoop_none_shape env fuel 0 _ st hl with ⟨nw, htr, hok⟩
    rw [htr, List.all_append, all_dumpFieldOK env _ nw hok]
    rfl
  | some .brk =>
    rcases hd : take_mem_dump env.dumps_dir st.entries endInfo with e | ⟨i, acts⟩
    · simp only [wait_for_completion, hl, hd]
      rcases wfcLoop_brk_shape env fuel 0 _ st hl with ⟨nw, htr, hok⟩
      rw [htr, List.all_append, List.all_append, all_dumpFieldOK env _ nw hok]
      rfl
    · simp only [wait_for_completion, hl, hd]
      rcases wfcLoop_brk_shape env fuel 0 _ st hl with ⟨nw, htr, hok⟩
      rw [htr, List.all_append, List.all_append, all_dumpFieldOK env _ nw hok]
      rfl
  | some .timedOut =>
    simp only [wait_for_completion, hl]
    rcases wfcLoop_timeout_shape env fuel 0 _ st hl with ⟨sc, nw, j, htr, hok⟩
    rw [htr, List.all_append, List.all_append, all_dumpFieldOK env _ nw hok]
    rfl
  | some (.failedErr m) =>
    simp only [wait_for_completion, hl]
    rcases wfcLoop_failed_shape env fuel 0 _ m st hl with ⟨nw, j, htr, hok⟩
    rw [htr, List.all_append, List.all_append, all_dumpFieldOK env _ nw hok]
    rfl
  | some (.commError e) =>
    simp only [wait_for_completion, hl]
    rcases wfcLoop_comm_shape env fuel 0 _ e st hl with ⟨nw, htr, hok⟩
    rw [htr, List.all_append, all_dumpFieldOK env _ nw hok]
    rfl
  | some (.dumpError e) =>
    simp only [wait_for_completion, hl]
    rcases wfcLoop_dumpErr_shape env fuel 0 _ e st hl with ⟨nw, htr, hok⟩
    rw [htr, List.all_append, all_dumpFieldOK env _ nw hok]
    rfl

/-- C6: whenever periodic capture is enabled and the cadence counter (after
    this iteration's increment) is an exact multiple of the periodic
    interval, the loop iteration pauses the watchdog, takes a snapshot with
    the Time trigger carrying the interval, then resumes the watchdog: the
    iteration's trace extends the previous one with exactly `timerStop`,
    the periodic dump, `timerResume` (followed only by the rest of the
    iteration's events).  Pausing only sets the stop flag and changes no
    other timer state, and while the stop flag is set any number of
    fine-grained timer ticks leaves the timer — in particular its elapsed
    time and fired flag — completely unchanged, so the capture is never
    charged against the critical budget. -/
theorem C6_periodic_pause_resume (env : Env) (k : Nat) (st : RunState)
    (i : Int) (acts : List FsAction) (tm : RTimer)
    (hab : env.abortAt k = false)
    (htb : env.time_based = true)
    (hmod : (st.sec_counter + 1) % env.time_to_sleep = 0)
    (hdump : take_mem_dump env.dumps_dir st.entries
        (timeInfo env.time_to_sleep) = .ok (i, acts))
    (hfin : tm.finished = false)
    (ht : tm.t < tm.interval) :
    (∃ tail, (iterState (wfcIter env k st)).trace =
        st.trace ++ ([Ev.timerStop, Ev.dump i (timeInfo env.time_to_sleep),
                      Ev.timerResume] ++ tail)) ∧
    RTimer.stop tm = { tm with stopev := true } ∧
    (∀ n : Nat, (RTimer.stop tm).tickN n = RTimer.stop tm) := by
  refine ⟨?_, rfl, tickN_stopped tm hfin ht⟩
  have hcond : (env.time_based &&
      ((st.sec_counter + 1) % env.time_to_sleep == 0)) = true := by
    rw [htb, hmod]
    rfl
  have hps : periodicStep env (incCounter (stopWait st)) =
      .inr { sec_counter := st.sec_counter + 1,
             entries := toString i :: st.entries,
             trace := st.trace ++ [Ev.timerStop,
               Ev.dump i (timeInfo env.time_to_sleep), Ev.timerResume] } := by
    rw [stopWait_eq]
    show periodicStep env
        (RunState.mk (st.sec_counter + 1) st.entries st.trace) = _
    unfold periodicStep
    dsimp only
    rw [if_pos hcond, hdump]
  have habn : ¬ (env.abortAt k = true) := by
    rw [hab]
    simp
  unfold wfcIter
  rw [if_neg habn, hps]
  dsimp only
  rcases hs : env.statusAt k with e | sv
  · simp only [hs, iterState]
    exact ⟨[], by simp⟩
  · simp only [hs]
    by_cases hc1 : (sv == CUCKOO_GUEST_COMPLETED) = true
    · rw [if_pos hc1]
      simp only [iterState]
      exact ⟨[], by simp⟩
    · rw [if_neg hc1]
      by_cases hc2 : (sv == CUCKOO_GUEST_FAILED) = true
      · rw [if_pos hc2]
        rcases he : env.errorAt k with e2 | err
        · simp only [he, iterState]
          exact ⟨[], by simp⟩
        · simp only [he]
          rcases hd2 : take_mem_dump env.dumps_dir
              (toString i :: st.entries) endInfo with e3 | ⟨i2, acts2⟩
          · simp only [hd2, iterState]
            exact ⟨[], by simp⟩
          · simp only [hd2, iterState]
            exact ⟨[Ev.dump i2 endInfo], by simp⟩
      · rw [if_neg hc2]
        simp only [iterState]
        exact ⟨[], by simp⟩

/-- Environment of the C6 witness: periodic capture enabled with interval
    two. -/
def envW6 : Env :=
  { statusAt := fun _ => .ok CUCKOO_GUEST_COMPLETED,
    errorAt := fun _ => .ok "",
    abortAt := fun _ => false,
    ambientStop := false,
    time_based := true,
    time_to_sleep := 2,
    max_number_of_dumps := 5,
    dumps_dir := "dumps",
    initialEntries := [] }

/-- Loop state of the C6 witness: the cadence counter is about to reach
    two. -/
def stW6 : RunState := { sec_counter := 1, entries := [], trace := [] }

/-- Timer state of the C6 witness: running, 40 of 100 ticks elapsed. -/
def tmW6 : RTimer :=
  { interval := 100, t := 40, stopev := false, finished := false, fired := false }

/-- Filesystem actions of the C6 witness dump. -/
def actsW6 : List FsAction :=
  [FsAction.mkdir "dumps/1", FsAction.dumpMemory "dumps/1/memory.dmp",
   FsAction.writeJson "dumps/1/info.json" (timeInfo 2)]

/-- Witness for C6 at a concrete input. -/
theorem C6_periodic_pause_resume_witness :
    (∃ tail, (iterState (wfcIter envW6 0 stW6)).trace =
        stW6.trace ++ ([Ev.timerStop, Ev.dump 1 (timeInfo envW6.time_to_sleep),
                        Ev.timerResume] ++ tail)) ∧
    RTimer.stop tmW6 = { tmW6 with stopev := true } ∧
    (∀ n : Nat, (RTimer.stop tmW6).tickN n = RTimer.stop tmW6) :=
  C6_periodic_pause_resume envW6 0 stW6 1 actsW6 tmW6 rfl rfl (by decide) rfl
    rfl (by decide)

/-- C7: on every iteration of the completion-polling loop the external
    stop-flag check constructs a fresh event object and tests it, so the
    check is permanently vacuous: a freshly constructed event is never set,
    the stop-wait step never changes the state, no run's trace contains a
    stop-wait sleep, and two runs differing only in the ambient stop flag
    are identical. -/
theorem C7_stop_check_vacuous :
    (∀ s : String, (Event_new s).is_set = false) ∧
    (∀ st : RunState, stopWait st = st) ∧
    (∀ (env : Env) (fuel : Nat),
       Ev.stopWaitSleep ∉ (wait_for_completion env fuel).2.trace) ∧
    (∀ (env : Env) (fuel : Nat) (b1 b2 : Bool),
       wait_for_completion { env with ambientStop := b1 } fuel =
         wait_for_completion { env with ambientStop := b2 } fuel) := by
  refine ⟨fun s => rfl, fun st => rfl, ?_, ?_⟩
  · intro env fuel h
    rcases trace_mem_shape env fuel Ev.stopWaitSleep h with
      h1 | h1 | h1 | ⟨j, info, h1, _⟩
    · exact absurd h1 (by simp)
    · exact absurd h1 (by simp)
    · cases h1
    · exact absurd h1 (by simp)
  · intro env fuel b1 b2
    rw [wfc_ambient env b1 fuel, wfc_ambient env b2 fuel]

/-- C8: the advisory maximum-snapshot-count configuration value
    `max_number_of_dumps` is read but never compared against the running
    snapshot count: two completion-wait runs that differ only in that
    configuration value are identical — same outcome, same snapshots, same
    trace. -/
theorem C8_max_dumps_no_effect (env : Env) (fuel : Nat) (n1 n2 : Int) :
    wait_for_completion { env with max_number_of_dumps := n1 } fuel =
      wait_for_completion { env with max_number_of_dumps := n2 } fuel := by
  rw [wfc_maxdumps env n1 fuel, wfc_maxdumps env n2 fuel]

/-- C9: whenever the dumps directory contains an entry whose name is not a
    decimal integer, `take_mem_dump` raises the integer-conversion error
    before any directory is created (the result is the error and carries no
    filesystem action), even when valid numeric-named snapshot directories
    exist. -/
theorem C9_nonnumeric_entry_fails (dumps_dir : String) (entries : List String)
    (json_obj : InfoDict) (e : String)
    (he : e ∈ entries) (hbad : pyInt? e = none) :
    take_mem_dump dumps_dir entries json_obj =
      .error "ValueError: invalid literal for int()" := by
  unfold take_mem_dump nextIndex
  rw [traverseOpt_none pyInt? entries ⟨e, he, hbad⟩]

/-- Witness for C9 at a concrete input: the listing `["1", "foo"]` holds
    the valid snapshot directory `1` and the non-numeric entry `foo`, and
    the snapshot attempt fails. -/
theorem C9_nonnumeric_entry_fails_witness :
    "foo" ∈ ["1", "foo"] ∧ pyInt? "foo" = none ∧
    take_mem_dump "dumps" ["1", "foo"] endInfo =
      .error "ValueError: invalid literal for int()" :=
  ⟨by decide, rfl,
   C9_nonnumeric_entry_fails "dumps" ["1", "foo"] endInfo "foo" (by decide) rfl⟩

/-- C10: when the remote reports Failed and the subsequent `get_error`
    query itself raises a communication error, that exception propagates to
    the caller uncaught and no terminal snapshot is taken before the run
    ends: a run hitting this on its first iteration surfaces the raw
    communication error as its outcome, and every run whose outcome is a
    propagated communication error has zero End-triggered dumps in its
    trace. -/
theorem C10_geterror_uncaught :
    (∀ (env : Env) (fuel : Nat) (e : String),
       env.abortAt 0 = false → env.time_based = false →
       env.statusAt 0 = .ok CUCKOO_GUEST_FAILED → env.errorAt 0 = .error e →
       (wait_for_completion env (fuel + 1)).1 = .commError e) ∧
    (∀ (env : Env) (fuel : Nat) (e : String),
       (wait_for_completion env fuel).1 = .commError e →
       countEnd (wait_for_completion env fuel).2.trace = 0) := by
  constructor
  · intro env fuel e h1 h2 h3 h4
    have hps : periodicStep env (incCounter (stopWait
        { sec_counter := 0, entries := env.initialEntries,
          trace := [Ev.timerStart] })) =
        .inr { sec_counter := 0 + 1, entries := env.initialEntries,
               trace := [Ev.timerStart] } := by
      rw [stopWait_eq]
      show periodicStep env
          (RunState.mk (0 + 1) env.initialEntries [Ev.timerStart]) = _
      unfold periodicStep
      dsimp only
      rw [h2]
      rfl
    have hiter : wfcIter env 0
        { sec_counter := 0, entries := env.initialEntries,
          trace := [Ev.timerStart] } =
        .inr (.commError e,
          { sec_counter := 0 + 1, entries := env.initialEntries,
            trace := [Ev.timerStart] }) := by
      unfold wfcIter
      rw [if_neg (by rw [h1]; simp), hps]
      dsimp only
      rw [h3]
      dsimp only
      rw [if_neg (by decide), if_pos (by decide), h4]
    have hloop : wfcLoop env (fuel + 1) 0
        { sec_counter := 0, entries := env.initialEntries,
          trace := [Ev.timerStart] } =
        (some (.commError e),
          { sec_counter := 0 + 1, entries := env.initialEntries,
            trace := [Ev.timerStart] }) := by
      simp only [wfcLoop, hiter]
    simp [wait_for_completion, hloop]
  · intro env fuel e h
    rcases hl : wfcLoop env fuel 0
        { sec_counter := 0, entries := env.initialEntries,
          trace := [Ev.timerStart] } with ⟨oex, st⟩
    match oex with
    | none => simp [wait_for_completion, hl] at h
    | some .brk =>
      rcases hd : take_mem_dump env.dumps_dir st.entries endInfo with
        e2 | ⟨i, acts⟩ <;> simp [wait_for_completion, hl, hd] at h
    | some .timedOut => simp [wait_for_completion, hl] at h
    | some (.failedErr m) => simp [wait_for_completion, hl] at h
    | some (.commError e2) =>
      simp only [wait_for_completion, hl]
      rw [countEnd_growsBy env (wfcLoop_comm_shape env fuel 0 _ e2 st hl)]
      rfl
    | some (.dumpError e2) => simp [wait_for_completion, hl] at h

/-- Environment of the C10 witness: the remote reports Failed on the first
    poll and the error query raises. -/
def envW10 : Env :=
  { statusAt := fun _ => .ok CUCKOO_GUEST_FAILED,
    errorAt := fun _ => .error "boom",
    abortAt := fun _ => false,
    ambientStop := false,
    time_based := false,
    time_to_sleep := 5,
    max_number_of_dumps := 10,
    dumps_dir := "dumps",
    initialEntries := [] }

/-- Witness for C10 at a concrete input: the raised error propagates as the
    run's outcome and the trace has no terminal dump. -/
theorem C10_geterror_uncaught_witness :
    (wait_for_completion envW10 1).1 = Outcome.commError "boom" ∧
    countEnd (wait_for_completion envW10 1).2.trace = 0 :=
  ⟨C10_geterror_uncaught.1 envW10 0 "boom" rfl rfl rfl rfl,
   C10_geterror_uncaught.2 envW10 1 "boom"
     (C10_geterror_uncaught.1 envW10 0 "boom" rfl rfl rfl rfl)⟩

/-- Witness for the amended C2 theorem at a concrete input: the concrete
    run records no cancel operation and the uncancelled timer fires. -/
theorem C2_watchdog_never_cancelled_witness :
    Ev.timerCancel ∉ (GuestManager.wait envW2 CUCKOO_GUEST_INIT 1).2 ∧
    ((RTimer.mk 3 0 false false false).tickN 4).fired = true :=
  ⟨C2_watchdog_never_cancelled.1 envW2 CUCKOO_GUEST_INIT 1,
   C2_watchdog_never_cancelled.2.2 3⟩

/-- Environment of the C7 witness. -/
def envW7 : Env :=
  { statusAt := fun _ => .ok CUCKOO_GUEST_COMPLETED,
    errorAt := fun _ => .ok "",
    abortAt := fun _ => false,
    ambientStop := true,
    time_based := false,
    time_to_sleep := 5,
    max_number_of_dumps := 10,
    dumps_dir := "dumps",
    initialEntries := [] }

/-- Witness for C7 at a concrete input: the freshly constructed event is
    unset even though the ambient stop flag of this environment is set, and
    the concrete run's trace has no stop-wait sleep. -/
theorem C7_stop_check_vacuous_witness :
    (Event_new STOP_EVENT).is_set = false ∧
    Ev.stopWaitSleep ∉ (wait_for_completion envW7 1).2.trace :=
  ⟨C7_stop_check_vacuous.1 STOP_EVENT, C7_stop_check_vacuous.2.2.1 envW7 1⟩
